import Mathlib

/-!
Verification of the anti-spam moderation bot (`bot.py`).

The Python source is embedded shallowly:

* pure helpers (`truncate`, the response-parsing pipeline) become Lean
  functions on `String` / `List Char`;
* dict-shaped Telegram records become structures whose `Option` fields model
  presence of the corresponding dict keys (`to_dict` omits absent values);
* fallible code returns `Except`;
* `json.loads` is modelled by an executable recursive-descent JSON reader
  (`json_loads`) covering objects, arrays, strings with escapes, integers,
  booleans and null; floats and surrogate-pair escapes are not modelled
  (no statement below depends on them).
-/

/-- Model of `truncate` (bot.py lines 112-115): Python slices strings by code
points, so `text[:max_length]` is `List.take` on the character list. -/
def truncate (text : String) (max_length : Nat) : String :=
  if text.length > max_length then String.mk (text.data.take max_length) ++ "..."
  else text

example : truncate "hello" 3 = "hel..." := by decide
example : truncate "hi" 3 = "hi" := by decide

/-- Characters stripped by Python `str.strip()` (ASCII whitespace; the
response texts in scope are ASCII-framed JSON). -/
def pyIsSpace (c : Char) : Bool :=
  c = ' ' || c = '\t' || c = '\n' || c = '\r' || c = '\x0b' || c = '\x0c'

/-- Model of Python `str.strip()`: drop whitespace from both ends. -/
def pyStrip (s : String) : String :=
  String.mk (((s.data.dropWhile pyIsSpace).reverse.dropWhile pyIsSpace).reverse)

/-- Model of Python `str.lower()` character by character.  `Char.toLower`
lower-cases the basic latin letters A-Z, which is the fragment the statements
below depend on; it leaves every other character (including the characters
inside `\uXXXX` escape sequences' hex digits, digits and punctuation) alone,
as Python does. -/
def pyLower (s : String) : String :=
  String.mk (s.data.map Char.toLower)

/-- Model of Python slicing `s[-n:]`: the last `n` characters (the whole
string when it is shorter). -/
def pyTakeLast (s : String) (n : Nat) : String :=
  String.mk (s.data.drop (s.data.length - n))

/-! ## JSON values and `json.loads`

The classifier parses the model response with `json.loads(result, strict=False)`.
The value universe and an executable recursive-descent reader are modelled
here.  Fidelity notes: numbers are modelled as integers (no float appears in
any statement below); `\uXXXX` escapes are decoded, except surrogate code
units, which Lean `Char` cannot represent; `strict=False` only relaxes the
control-character restriction inside strings, and the reader below accepts
those unconditionally.  Python dicts keep the last of duplicate keys, which
`jlookup` mirrors by searching from the end. -/

inductive JValue where
  | null : JValue
  | bool (b : Bool) : JValue
  | num (n : Int) : JValue
  | str (s : String) : JValue
  | arr (xs : List JValue) : JValue
  | obj (fields : List (String × JValue)) : JValue

/-- Hex digit value, accepted case-insensitively as in JSON `\u` escapes. -/
def hexDigit (c : Char) : Option Nat :=
  if '0' ≤ c ∧ c ≤ '9' then some (c.toNat - '0'.toNat)
  else if 'a' ≤ c ∧ c ≤ 'f' then some (c.toNat - 'a'.toNat + 10)
  else if 'A' ≤ c ∧ c ≤ 'F' then some (c.toNat - 'A'.toNat + 10)
  else none

/-- Decode of a single-character JSON escape (`\"`, `\\`, `\/`, `\b`, `\f`,
`\n`, `\r`, `\t`); anything else is a parse error. -/
def escChar (c : Char) : Option Char :=
  if c = '"' then some '"'
  else if c = '\\' then some '\\'
  else if c = '/' then some '/'
  else if c = 'b' then some '\x08'
  else if c = 'f' then some '\x0c'
  else if c = 'n' then some '\n'
  else if c = 'r' then some '\r'
  else if c = 't' then some '\t'
  else none

/-- Body of a JSON string, after the opening quote: returns the decoded
content and the remaining input after the closing quote. -/
def parseStrBody : List Char → Option (List Char × List Char)
  | [] => none
  | '"' :: rest => some ([], rest)
  | '\\' :: 'u' :: h1 :: h2 :: h3 :: h4 :: rest =>
    (match hexDigit h1, hexDigit h2, hexDigit h3, hexDigit h4 with
     | some a, some b, some c, some d =>
       let n := ((a * 16 + b) * 16 + c) * 16 + d
       if n < 0xd800 then
         (parseStrBody rest).map (fun p => (Char.ofNat n :: p.1, p.2))
       else none
     | _, _, _, _ => none)
  | '\\' :: e :: rest =>
    (match escChar e with
     | some c => (parseStrBody rest).map (fun p => (c :: p.1, p.2))
     | none => none)
  | c :: rest => (parseStrBody rest).map (fun p => (c :: p.1, p.2))

/-- JSON insignificant whitespace skipping. -/
def skipWs : List Char → List Char
  | [] => []
  | c :: rest => if c = ' ' ∨ c = '\t' ∨ c = '\n' ∨ c = '\r' then skipWs rest else c :: rest

/-- Longest prefix of decimal digits, and the rest. -/
def takeDigits : List Char → List Char × List Char
  | [] => ([], [])
  | c :: rest =>
    if '0' ≤ c ∧ c ≤ '9' then
      let p := takeDigits rest
      (c :: p.1, p.2)
    else ([], c :: rest)

/-- Digit list to the number it denotes. -/
def digitsToNat (ds : List Char) : Nat :=
  ds.foldl (fun acc c => acc * 10 + (c.toNat - '0'.toNat)) 0

/-- Unsigned JSON integer literal (floats and exponents are not modelled;
leading zeros are rejected, as `json.loads` rejects them). -/
def parseNumNat (cs : List Char) : Option (Nat × List Char) :=
  match takeDigits cs with
  | ([], _) => none
  | (d :: ds, r) =>
    if d = '0' ∧ ds ≠ [] then none
    else
      match r with
      | '.' :: _ => none
      | 'e' :: _ => none
      | 'E' :: _ => none
      | _ => some (digitsToNat (d :: ds), r)

/-- JSON integer literal with an optional leading minus sign. -/
def parseNum (cs : List Char) : Option (Int × List Char) :=
  match cs with
  | '-' :: rest => (parseNumNat rest).map (fun p => (-(p.1 : Int), p.2))
  | _ => (parseNumNat cs).map (fun p => ((p.1 : Int), p.2))

mutual

/-- JSON value, with a fuel bound on the recursion depth; `json_loads`
supplies ample fuel for its input. -/
def parseVal : Nat → List Char → Option (JValue × List Char)
  | 0, _ => none
  | fuel+1, cs =>
    match skipWs cs with
    | '"' :: rest => (parseStrBody rest).map (fun p => (JValue.str (String.mk p.1), p.2))
    | '\x7b' :: rest =>
      (match skipWs rest with
       | '\x7d' :: r2 => some (JValue.obj [], r2)
       | cs2 => (parseMembers fuel cs2).map (fun p => (JValue.obj p.1, p.2)))
    | '[' :: rest =>
      (match skipWs rest with
       | ']' :: r2 => some (JValue.arr [], r2)
       | cs2 => (parseItems fuel cs2).map (fun p => (JValue.arr p.1, p.2)))
    | 't' :: 'r' :: 'u' :: 'e' :: rest => some (JValue.bool true, rest)
    | 'f' :: 'a' :: 'l' :: 's' :: 'e' :: rest => some (JValue.bool false, rest)
    | 'n' :: 'u' :: 'l' :: 'l' :: rest => some (JValue.null, rest)
    | cs1 => (parseNum cs1).map (fun p => (JValue.num p.1, p.2))

/-- Members of a JSON object (at least one), up to and including the
closing brace. -/
def parseMembers : Nat → List Char → Option (List (String × JValue) × List Char)
  | 0, _ => none
  | fuel+1, cs =>
    match skipWs cs with
    | '"' :: rest =>
      (match parseStrBody rest with
       | some (key, r1) =>
         (match skipWs r1 with
          | ':' :: r2 =>
            (match parseVal fuel r2 with
             | some (v, r3) =>
               (match skipWs r3 with
                | ',' :: r4 => (parseMembers fuel r4).map (fun p => ((String.mk key, v) :: p.1, p.2))
                | '\x7d' :: r4 => some ([(String.mk key, v)], r4)
                | _ => none)
             | none => none)
          | _ => none)
       | none => none)
    | _ => none

/-- Items of a JSON array (at least one), up to and including the closing
bracket. -/
def parseItems : Nat → List Char → Option (List JValue × List Char)
  | 0, _ => none
  | fuel+1, cs =>
    match parseVal fuel cs with
    | some (v, r1) =>
      (match skipWs r1 with
       | ',' :: r2 => (parseItems fuel r2).map (fun p => (v :: p.1, p.2))
       | ']' :: r2 => some ([v], r2)
       | _ => none)
    | none => none

end

/-- Model of `json.loads`: the whole input must be one JSON value, up to
trailing whitespace. -/
def json_loads (s : String) : Option JValue :=
  match parseVal (s.data.length + 2) s.data with
  | some (v, rest) => if skipWs rest = [] then some v else none
  | none => none

/-- Python dict lookup on the parsed object: duplicate keys keep the last
occurrence, so search from the end. -/
def jlookup (fields : List (String × JValue)) (k : String) : Option JValue :=
  (fields.reverse.find? (fun p => p.1 = k)).map Prod.snd

/-- Model of `result[key]` on the parsed JSON value: `none` models the
exception Python raises (`KeyError` on a dict without the key, `TypeError`
on a non-dict). -/
def subscript : JValue → String → Option JValue
  | JValue.obj fields, k => jlookup fields k
  | _, _ => none

/-- Python truthiness of a parsed JSON value, as used by `if result["spam"]:`. -/
def pyTruthy : JValue → Bool
  | JValue.null => false
  | JValue.bool b => b
  | JValue.num n => n ≠ 0
  | JValue.str s => !s.isEmpty
  | JValue.arr xs => !xs.isEmpty
  | JValue.obj fs => !fs.isEmpty

/-- Proposition that `s` occurs as a string value inside the JSON value
(under objects and arrays). -/
inductive HasStr : JValue → String → Prop where
  | str (s : String) : HasStr (JValue.str s) s
  | obj {fs : List (String × JValue)} {k : String} {v : JValue} {s : String} :
      (k, v) ∈ fs → HasStr v s → HasStr (JValue.obj fs) s
  | arr {xs : List JValue} {v : JValue} {s : String} :
      v ∈ xs → HasStr v s → HasStr (JValue.arr xs) s

/-! ## Telegram records and the Redactor (`get_comment_info`)

Telegram objects arrive as `to_dict()` dictionaries; a key is absent when the
underlying attribute is unset, which `Option` fields model.  Only the fields
the pipeline reads or is specified over are named; the remaining metadata
keys of the comment dict are carried as a list of key names (`otherKeys`),
enough to model the `delete_fields` stripping loop and the reply-context
drop loop, which act on key names only. -/

/-- Sender dictionary (`User.to_dict()` or `Chat.to_dict()`): the pipeline
reads `id`, `is_premium` and pops `is_bot` from the embedded copy. -/
structure UserD where
  id : Int
  is_premium : Option Bool := none
  is_bot : Option Bool := none
deriving DecidableEq

/-- Dictionary of the replied-to message (`reply_to_message`), reduced to the
fields the redactor inspects plus the names of any other keys. -/
structure ReplyMsg where
  caption : Option String := none
  text : Option String := none
  date : Option Int := none
  otherKeys : List String := []
deriving DecidableEq

/-- Python truthiness of the reply dict (`comment_dict.get("reply_to_message")`
guards): a dict is truthy iff it is non-empty. -/
def ReplyMsg.truthy (r : ReplyMsg) : Bool :=
  r.caption.isSome || r.text.isSome || r.date.isSome || !r.otherKeys.isEmpty

/-- Forward origin of a forwarded message; `sender_user` is present exactly
when the origin is a known user (`hasattr(..., "sender_user")`). -/
structure ForwardOrigin where
  sender_user : Option UserD := none
deriving DecidableEq

/-- Incoming message (`update.message`), restricted to the attributes
`get_comment_info` and the handlers read. -/
structure Message where
  forward_origin : Option ForwardOrigin := none
  sender_chat : Option UserD := none
  from_user : Option UserD := none
  text : Option String := none
  date : Option Int := none
  reply_to_message : Option ReplyMsg := none
  otherKeys : List String := []
deriving DecidableEq

/-- Embedded sender snapshot stored in the record: `dict(user_dict)` with
`is_bot` and `id` popped; of the modelled sender fields only `is_premium`
survives. -/
structure EmbeddedUser where
  is_premium : Option Bool := none
deriving DecidableEq

/-- Redacted comment record produced by `get_comment_info`. -/
structure CommentRecord where
  text : Option String := none
  date : Option Int := none
  reply_to_message : Option ReplyMsg := none
  from_user : EmbeddedUser := {}
  comment_delay_seconds : Option Int := none
  otherKeys : List String := []
deriving DecidableEq

/-- Failures raised inside `get_comment_info`:
`missingSender` models the failure when no sender resolves (the
`user.to_dict()` attribute error on a missing `from_user`, guarded by the
assertion at line 134); `keyError` models the
`comment_dict["reply_to_message"]["date"]` lookup failing at line 181. -/
inductive RedactErr where
  | missingSender : RedactErr
  | keyError : RedactErr
deriving DecidableEq

/-- Keys stripped from the comment dict (bot.py lines 137-152). -/
def delete_fields : List String :=
  ["link_preview_options", "chat", "group_chat_created", "channel_chat_created",
   "delete_chat_photo", "supergroup_chat_created", "message_id", "forward_origin",
   "forward_date", "forward_from", "forward_from_chat", "from", "entities",
   "message_thread_id"]

/-- Reply-context trimming (bot.py lines 160-178): truncate the caption; if a
text is present, delete the caption and truncate the text; then drop every
key that is not `caption` or `date` — note that this drop list omits `text`,
so the just-truncated text is deleted as well. -/
def redact_reply (r : ReplyMsg) : ReplyMsg :=
  let r1 : ReplyMsg := { r with caption := r.caption.map (fun c => truncate c 500) }
  let r2 : ReplyMsg :=
    if r1.text.isSome then
      { r1 with caption := none, text := r1.text.map (fun t => truncate t 500) }
    else r1
  { caption := r2.caption, text := none, date := r2.date, otherKeys := [] }

/-- Forward-origin sender lookup (bot.py lines 122-125): only consulted when
`treat_forward_origin_as_sender` is set, and only yields a sender when the
origin exists and carries a `sender_user`. -/
def forward_sender (treat_forward_origin_as_sender : Bool) (m : Message) : Option UserD :=
  if treat_forward_origin_as_sender then
    match m.forward_origin with
    | some fo => fo.sender_user
    | none => none
  else none

/-- Sender resolution (bot.py lines 121-134): forward origin (when enabled),
then `sender_chat`, then `from_user`; with none of the three, the code fails
while taking `update.message.from_user.to_dict()` on `None`. -/
def resolve_user (treat_forward_origin_as_sender : Bool) (m : Message) :
    Except RedactErr UserD :=
  match forward_sender treat_forward_origin_as_sender m with
  | some u => Except.ok u
  | none =>
    match m.sender_chat with
    | some c => Except.ok c
    | none =>
      match m.from_user with
      | some u => Except.ok u
      | none => Except.error RedactErr.missingSender

/-- Reply dict as it stands after the trimming block: trimming runs only when
the original reply dict is truthy. -/
def trimmed_reply (m : Message) : Option ReplyMsg :=
  m.reply_to_message.map (fun r => if r.truthy then redact_reply r else r)

/-- Python truthiness of an optional integer field (`comment_dict.get("date")`):
absent and zero are both falsy. -/
def int_truthy : Option Int → Bool
  | none => false
  | some d => d ≠ 0

/-- Python truthiness of the (possibly absent) reply dict. -/
def replyTruthyOpt : Option ReplyMsg → Bool
  | some rp => rp.truthy
  | none => false

/-- Delay derivation (bot.py lines 180-182): guarded by the truthiness of the
trimmed reply dict and of the comment `date` — not by the presence of the
reply timestamp, whose lookup `comment_dict["reply_to_message"]["date"]`
raises a `KeyError` when the key is absent. -/
def delay_calc (m : Message) : Except RedactErr (Option Int) :=
  match trimmed_reply m with
  | some r' =>
    if r'.truthy && int_truthy m.date then
      match m.date, r'.date with
      | some d, some rd => Except.ok (some (d - rd))
      | _, none => Except.error RedactErr.keyError
      | none, _ => Except.ok none
    else Except.ok none
  | none => Except.ok none

/-- Model of `get_comment_info` (bot.py lines 118-185): resolve the sender,
strip `delete_fields`, embed the sender snapshot without `is_bot`/`id`, trim
the reply context, derive `comment_delay_seconds`, truncate the main text. -/
def get_comment_info (treat_forward_origin_as_sender : Bool) (m : Message) :
    Except RedactErr (UserD × CommentRecord) := do
  let user_dict ← resolve_user treat_forward_origin_as_sender m
  let delay ← delay_calc m
  pure (user_dict,
    { text := m.text.map (fun t => truncate t 1000)
      date := m.date
      reply_to_message := trimmed_reply m
      from_user := { is_premium := user_dict.is_premium }
      comment_delay_seconds := delay
      otherKeys := m.otherKeys.filter (fun k => !delete_fields.contains k) })

/-- Projection used by concrete statements: the record part of a successful
redaction. -/
def recordOf (e : Except RedactErr (UserD × CommentRecord)) : Option CommentRecord :=
  match e with
  | Except.ok p => some p.2
  | Except.error _ => none

/-! ## Classifier (`retry`, `call_model_stack`, `check_spam`)

Backend behaviour is an environment parameter `gen` from backend name to
outcome; the prompt is a fixed template around the serialized record and is
not itself modelled (no statement below depends on its text).  Every result
carries the number of backend invocation attempts actually made. -/

/-- Exceptions that cross the handler boundary. -/
inductive PyErr where
  | telegramError : PyErr
  | genFailure : PyErr
  | jsonDecodeError : PyErr
  | keyErrorSpam : PyErr
  | attributeNone : PyErr
  | redact (e : RedactErr) : PyErr
deriving DecidableEq

/-- Model of `call_model_stack` (bot.py lines 79-96): walk the stack in
order, return the first successful response; a failure on the last entry is
re-raised; with an empty stack the loop body never runs and the function
returns `None` (`Except.ok none`).  The first component counts backend
invocation attempts. -/
def call_model_stack (gen : String → Except PyErr String) :
    List String → Nat × Except PyErr (Option String)
  | [] => (0, Except.ok none)
  | [m] =>
    (match gen m with
     | Except.ok r => (1, Except.ok (some r))
     | Except.error e => (1, Except.error e))
  | m :: m2 :: rest =>
    (match gen m with
     | Except.ok r => (1, Except.ok (some r))
     | Except.error _ =>
       let p := call_model_stack gen (m2 :: rest)
       (p.1 + 1, p.2))

/-- Body of `check_spam` as executed when its coroutine is awaited (bot.py
lines 99-109): one walk of the model stack, then
`response.text.strip().lower()` and `json.loads`.  A `None` response (empty
stack) fails at the `.text` attribute access. -/
def check_spam_body (gen : String → Except PyErr String) (stack : List String) :
    Unit → Nat × Except PyErr JValue := fun _ =>
  match call_model_stack gen stack with
  | (n, Except.error e) => (n, Except.error e)
  | (n, Except.ok none) => (n, Except.error PyErr.attributeNone)
  | (n, Except.ok (some raw)) =>
    match json_loads (pyLower (pyStrip raw)) with
    | none => (n, Except.error PyErr.jsonDecodeError)
    | some v => (n, Except.ok v)

/-- Semantics of the `@retry` decorator (bot.py lines 66-76) around an
`async def`: the wrapped call executes `return func(*args, **kwargs)` on the
first loop iteration, and calling an async function merely constructs its
coroutine — it cannot raise — so the wrapper returns that coroutine
immediately and its `except` branch never runs.  The body's exceptions
surface only at the `await`, outside the wrapper. -/
def retry_async {α β : Type} (func : α → Unit → β) (a : α) : Unit → β :=
  func a

/-- Awaited result of the decorated `check_spam`: one stack walk (the retry
wrapper is inert on an async function). -/
def check_spam (gen : String → Except PyErr String) (stack : List String) :
    Nat × Except PyErr JValue :=
  retry_async (check_spam_body gen) stack ()

/-- Semantics the `retry` decorator has around a synchronous zero-argument
callable, for comparison: up to `budget` attempts, re-raising the last
failure; the `none` result is the implicit `None` returned when the budget
is zero and the loop body never runs.  Attempt counts accumulate. -/
def retry_sync {α : Type} (f : Unit → Nat × Except PyErr α) :
    Nat → Nat × Option (Except PyErr α)
  | 0 => (0, none)
  | 1 =>
    let p := f ()
    (p.1, some p.2)
  | k+2 =>
    match f () with
    | (n, Except.ok a) => (n, some (Except.ok a))
    | (n, Except.error _) =>
      let p := retry_sync f (k+1)
      (n + p.1, p.2)

/-! ## Decision Router (`handle_comment`, `handle_private_message`) -/

/-- Process-wide configuration loaded from the environment at startup. -/
structure Env where
  ADMIN_ID : Int
  TARGET_GROUP_ID : Int
  whitelist_extra : List Int
deriving DecidableEq

/-- Whitelist construction (bot.py lines 31-33): admin id, monitored group
id, then the configured extra ids. -/
def WHITELIST_IDS (env : Env) : List Int :=
  [env.ADMIN_ID, env.TARGET_GROUP_ID] ++ env.whitelist_extra

/-- Outcome of the group-flow handler. -/
inductive GroupOutcome where
  | skippedScope : GroupOutcome
  | skippedWhitelist : GroupOutcome
  | skippedPremium : GroupOutcome
  | notSpam : GroupOutcome
  | spamNotified : GroupOutcome
  | raised (e : PyErr) : GroupOutcome
deriving DecidableEq

/-- Model of `handle_comment` (bot.py lines 209-249).  The first component
counts backend invocation attempts made on behalf of this update; `raised`
outcomes propagate to the error handler.  On a truthy verdict the handler
notifies the admin and forwards the original message (`spamNotified`);
deletion and banning are commented out in the source and not modelled. -/
def handle_comment (env : Env) (chatId : Int) (m : Message)
    (gen : String → Except PyErr String) (stack : List String) :
    Nat × GroupOutcome :=
  if chatId ≠ env.TARGET_GROUP_ID then (0, GroupOutcome.skippedScope)
  else
    match get_comment_info false m with
    | Except.error e => (0, GroupOutcome.raised (PyErr.redact e))
    | Except.ok (user_dict, _comment_dict) =>
      if user_dict.id ∈ WHITELIST_IDS env then (0, GroupOutcome.skippedWhitelist)
      else if user_dict.is_premium = some true then (0, GroupOutcome.skippedPremium)
      else
        match check_spam gen stack with
        | (n, Except.error e) => (n, GroupOutcome.raised e)
        | (n, Except.ok v) =>
          match subscript v "spam" with
          | none => (n, GroupOutcome.raised PyErr.keyErrorSpam)
          | some sv =>
            if pyTruthy sv then (n, GroupOutcome.spamNotified)
            else (n, GroupOutcome.notSpam)

/-- Outcome of the private-flow handler. -/
inductive PrivateOutcome where
  | skippedScope : PrivateOutcome
  | echoed (whitelistNotice : Bool) : PrivateOutcome
  | raised (e : PyErr) : PrivateOutcome
deriving DecidableEq

/-- Model of `handle_private_message` (bot.py lines 252-281): scope-guarded
to the admin chat; resolves the sender with the forward origin preferred; a
whitelisted sender only triggers a notice reply — classification proceeds
regardless, and the verdict and prompt are echoed back whatever the
outcome. -/
def handle_private_message (env : Env) (chatId : Int) (m : Message)
    (gen : String → Except PyErr String) (stack : List String) :
    Nat × PrivateOutcome :=
  if chatId ≠ env.ADMIN_ID then (0, PrivateOutcome.skippedScope)
  else
    match get_comment_info true m with
    | Except.error e => (0, PrivateOutcome.raised (PyErr.redact e))
    | Except.ok (user_dict, _comment_dict) =>
      let notice := user_dict.id ∈ WHITELIST_IDS env
      match check_spam gen stack with
      | (n, Except.error e) => (n, PrivateOutcome.raised e)
      | (n, Except.ok _v) => (n, PrivateOutcome.echoed notice)

/-! ## Escalation Reporter (`error_handler`) -/

/-- Content of the diagnostic notification: the update's message text
truncated to 200 characters when present, and the last 300 characters of the
formatted traceback. -/
structure Diagnostic where
  update_text : Option String
  tb_tail : String
deriving DecidableEq

/-- Diagnostic assembled by `error_handler` (bot.py lines 288-311). -/
def mkDiag (messageText : Option String) (tb : String) : Diagnostic :=
  { update_text := messageText.map (fun t => truncate t 200)
    tb_tail := pyTakeLast tb 300 }

/-- Transport-error test (`isinstance(context.error, TelegramError)`). -/
def isTelegramError : PyErr → Bool
  | PyErr.telegramError => true
  | _ => false

/-- Outcome of the error handler. -/
inductive ErrorHandlerResult where
  | exited (d : Diagnostic) : ErrorHandlerResult
  | continued (d : Diagnostic) : ErrorHandlerResult
  | raised (e : PyErr) : ErrorHandlerResult
deriving DecidableEq

/-- Test for process termination by the error handler. -/
def isExited : ErrorHandlerResult → Bool
  | ErrorHandlerResult.exited _ => true
  | _ => false

/-- Model of `error_handler` (bot.py lines 284-316): build the truncated
diagnostic, `await send_to(...)` it to the admin — this send is NOT guarded,
so if it raises, the handler propagates and the `exit(1)` below is never
reached — then terminate the process exactly when the original failure is a
`TelegramError`.  `send` is the outcome of the escalation send. -/
def error_handler (err : PyErr) (messageText : Option String) (tb : String)
    (send : Except PyErr Unit) : ErrorHandlerResult :=
  let d := mkDiag messageText tb
  match send with
  | Except.error e => ErrorHandlerResult.raised e
  | Except.ok _ =>
    if isTelegramError err then ErrorHandlerResult.exited d
    else ErrorHandlerResult.continued d

/-- Test for a successful escalation send. -/
def sendOk : Except PyErr Unit → Bool
  | Except.ok _ => true
  | Except.error _ => false

/-- Projection on the classifier outcome: the parsed value of a successful run. -/
def okValue : Except PyErr JValue → Option JValue
  | Except.ok v => some v
  | Except.error _ => none

/-- Projection on an optional JSON value: its content when it is a string. -/
def asStr : Option JValue → Option String
  | some (JValue.str s) => some s
  | _ => none

/-! ## Concrete scenario data used by closed statements -/

/-- Default model stack (bot.py line 79). -/
def stack0 : List String := ["gemini-1.5-pro", "gemini-1.5-flash-002"]

/-- Example configuration: admin chat 1, monitored group 2, one extra
whitelisted id. -/
def env0 : Env := { ADMIN_ID := 1, TARGET_GROUP_ID := 2, whitelist_extra := [10] }

/-- Backend behaviour: every backend answers with a well-formed not-spam
verdict. -/
def gen_not_spam : String → Except PyErr String :=
  fun _ => Except.ok "\x7b\"spam\": false\x7d"

/-- Backend behaviour: every backend answers with a JSON object whose `spam`
field is the number `0`, not a boolean. -/
def gen_num_spam : String → Except PyErr String :=
  fun _ => Except.ok "\x7b\"spam\": 0\x7d"

/-- Backend behaviour: every backend answers with text that is not JSON. -/
def gen_bad_json : String → Except PyErr String :=
  fun _ => Except.ok "here you go: spam"

/-- Backend behaviour: every backend raises. -/
def gen_fail : String → Except PyErr String :=
  fun _ => Except.error PyErr.genFailure

/-- Backend behaviour: a spam verdict whose `why` spells an upper-case letter
with the JSON escape `\u004C` (`L`); lower-casing the raw text turns it into
`\u004c`, which still decodes to the upper-case `L`. -/
def gen_escape_why : String → Except PyErr String :=
  fun _ => Except.ok "\x7b\"spam\": true, \"why\": \"\\u004C\"\x7d"

/-- Backend behaviour: a spam verdict with an upper-cased literal `why`. -/
def gen_upper_why : String → Except PyErr String :=
  fun _ => Except.ok "\x7b\"spam\": true, \"why\": \"Bait Link\"\x7d"

/-- Message whose direct sender is the admin (id 1): whitelisted. -/
def mWhitelisted : Message := { from_user := some { id := 1 } }

/-- Message whose direct sender is a premium, non-whitelisted user. -/
def mPremium : Message := { from_user := some { id := 42, is_premium := some true } }

/-- Message from a plain, non-whitelisted, non-premium sender. -/
def mPlain : Message := { from_user := some { id := 42 } }

/-- Sender and record produced by redacting `mPlain`. -/
def uPlain : UserD := { id := 42 }

/-- Record produced by redacting `mPlain` (everything absent or default). -/
def rPlain : CommentRecord := {}

/-- Comment replying to a post that has a `text` and a `date`. -/
def mReplyText : Message :=
  { from_user := some { id := 9 },
    date := some 130,
    reply_to_message := some { text := some "hello post body", date := some 100 } }

/-- Comment whose own `date` is the (falsy) timestamp 0, replying to a post
dated 5. -/
def mZeroDate : Message :=
  { from_user := some { id := 9 },
    date := some 0,
    reply_to_message := some { text := some "t", date := some 5 } }

/-- Comment replying to a post that has a caption but no `date` key. -/
def mCaptionNoDate : Message :=
  { from_user := some { id := 9 },
    date := some 100,
    reply_to_message := some { caption := some "cap" } }

/-- A 1001-character comment text. -/
def longText : String := String.mk (List.replicate 1001 'a')

/-- Message carrying the 1001-character text. -/
def mLongText : Message := { from_user := some { id := 7 }, text := some longText }

/-- Sender of `mLongText`. -/
def uLong : UserD := { id := 7 }

/-- Record produced by redacting `mLongText`. -/
def rLong : CommentRecord := { text := some (truncate longText 1000) }

/-- Message with no forward origin, no sender chat and no direct sender. -/
def mNoSender : Message := { text := some "x" }

/-! ## Helper lemmas -/

/-- Bound on `truncate`: the result never exceeds the cap plus the 3-character
marker `"..."`. -/
theorem truncate_length_le (s : String) (n : Nat) : (truncate s n).length ≤ n + 3 := by
  unfold truncate
  split
  · rw [String.length_append, String.length_mk]
    have h1 : (s.data.take n).length ≤ n := by
      rw [List.length_take]
      omega
    have h2 : ("..." : String).length = 3 := rfl
    omega
  · rename_i h
    omega

/-- Walk of a fully failing stack: one attempt per backend, and the last
failure is re-raised. -/
theorem call_model_stack_all_fail (gen : String → Except PyErr String) (e : PyErr) :
    ∀ stack : List String, (∀ b ∈ stack, gen b = Except.error e) → stack ≠ [] →
      call_model_stack gen stack = (stack.length, Except.error e) := by
  intro stack
  induction stack with
  | nil => intro _ hne; exact absurd rfl hne
  | cons b rest ih =>
    intro hfail _
    have hb : gen b = Except.error e := hfail b (List.mem_cons_self b rest)
    cases rest with
    | nil => simp [call_model_stack, hb]
    | cons b2 rest2 =>
      have hrec := ih (fun x hx => hfail x (List.mem_cons_of_mem b hx)) (by simp)
      simp [call_model_stack, hb, hrec]

/-- Propagation of a resolution failure through `get_comment_info`. -/
theorem get_comment_info_resolve_error (tf : Bool) (m : Message) (e : RedactErr)
    (h : resolve_user tf m = Except.error e) :
    get_comment_info tf m = Except.error e := by
  unfold get_comment_info
  rw [h]
  rfl

/-- Characterization of a successful delay derivation. -/
theorem delay_calc_ok (m : Message) (dly : Option Int)
    (h : delay_calc m = Except.ok dly) :
    dly.isSome = (replyTruthyOpt (trimmed_reply m) && int_truthy m.date) ∧
    (∀ x, dly = some x →
      ∃ d rd, m.date = some d ∧ (trimmed_reply m).bind ReplyMsg.date = some rd ∧
        x = d - rd) := by
  unfold delay_calc at h
  cases htr : trimmed_reply m with
  | none =>
    rw [htr] at h
    cases h
    simp [replyTruthyOpt]
  | some r' =>
    simp only [htr] at h
    by_cases hc : (r'.truthy && int_truthy m.date) = true
    · rw [if_pos hc] at h
      cases hd : m.date with
      | none =>
        rw [hd] at hc
        simp [int_truthy] at hc
      | some d =>
        rw [hd] at h
        cases hrd : r'.date with
        | none => rw [hrd] at h; cases h
        | some rd =>
          rw [hrd] at h
          cases h
          rw [hd] at hc
          constructor
          · simpa [replyTruthyOpt] using hc
          · intro x hx
            cases hx
            exact ⟨d, rd, rfl, by simp [htr, hrd], rfl⟩
    · rw [if_neg hc] at h
      cases h
      simp only [Option.isSome_none, replyTruthyOpt, htr]
      simp only [Bool.not_eq_true] at hc
      constructor
      · exact hc.symm
      · intro x hx
        cases hx

/-- Extraction of the shape of a successful redaction. -/
theorem get_comment_info_ok (tf : Bool) (m : Message) (u : UserD) (r : CommentRecord)
    (h : get_comment_info tf m = Except.ok (u, r)) :
    resolve_user tf m = Except.ok u ∧
    r.text = m.text.map (fun t => truncate t 1000) ∧
    r.date = m.date ∧
    r.reply_to_message = trimmed_reply m ∧
    r.from_user = { is_premium := u.is_premium } ∧
    r.otherKeys = m.otherKeys.filter (fun k => !delete_fields.contains k) ∧
    r.comment_delay_seconds.isSome = (replyTruthyOpt (trimmed_reply m) && int_truthy m.date) ∧
    (∀ dly, r.comment_delay_seconds = some dly →
      ∃ d rd, m.date = some d ∧ (trimmed_reply m).bind ReplyMsg.date = some rd ∧
        dly = d - rd) := by
  unfold get_comment_info at h
  cases hres : resolve_user tf m with
  | error e =>
    rw [hres] at h
    cases h
  | ok u0 =>
    rw [hres] at h
    cases hdc : delay_calc m with
    | error e =>
      rw [hdc] at h
      cases h
    | ok dly =>
      rw [hdc] at h
      cases h
      obtain ⟨h1, h2⟩ := delay_calc_ok m dly hdc
      exact ⟨rfl, rfl, rfl, rfl, rfl, rfl, h1, h2⟩

/-- Closed form of `redact_reply`: of the content fields, only the caption
can survive, and only when no text was present. -/
theorem redact_reply_eq (r : ReplyMsg) :
    redact_reply r =
      { caption := if r.text.isSome then none else r.caption.map (fun c => truncate c 500),
        text := none,
        date := r.date,
        otherKeys := [] } := by
  unfold redact_reply
  by_cases ht : r.text.isSome
  · simp [ht]
  · simp [ht]

/-- Length bounds on the trimmed reply dict. -/
theorem trimmed_reply_bounds (m : Message) (rp : ReplyMsg)
    (h : trimmed_reply m = some rp) :
    (∀ c, rp.caption = some c → c.length ≤ 503) ∧
    (∀ t, rp.text = some t → t.length ≤ 503) := by
  unfold trimmed_reply at h
  cases hr : m.reply_to_message with
  | none => rw [hr] at h; cases h
  | some r0 =>
    rw [hr] at h
    simp only [Option.map_some'] at h
    cases h
    by_cases ht : r0.truthy = true
    · rw [if_pos ht, redact_reply_eq]
      constructor
      · intro c hc
        simp only at hc
        by_cases htext : r0.text.isSome
        · rw [if_pos htext] at hc
          cases hc
        · rw [if_neg htext] at hc
          cases hcap : r0.caption with
          | none => rw [hcap] at hc; cases hc
          | some c0 =>
            rw [hcap] at hc
            simp only [Option.map_some'] at hc
            cases hc
            exact truncate_length_le c0 500
      · intro t htx
        simp only at htx
        cases htx
    · rw [if_neg ht]
      constructor
      · intro c hc
        exact absurd (by simp [ReplyMsg.truthy, hc] : r0.truthy = true) ht
      · intro t htx
        exact absurd (by simp [ReplyMsg.truthy, htx] : r0.truthy = true) ht

/-- Lower-casing never produces an upper-case basic latin letter. -/
theorem toLower_isUpper_false (c : Char) : (Char.toLower c).isUpper = false := by
  unfold Char.toLower
  simp only []
  by_cases h : c.toNat ≥ 65 ∧ c.toNat ≤ 90
  · rw [if_pos h]
    have hv : (Char.toNat c + 32).isValidChar := Or.inl (by omega)
    rw [Char.ofNat, dif_pos hv]
    unfold Char.ofNatAux Char.isUpper
    simp only [UInt32.le_def, BitVec.le_def]
    simp [BitVec.toNat_ofNatLt]
    omega
  · rw [if_neg h]
    unfold Char.isUpper
    simp only [Char.toNat] at h
    have hbv : c.val.toNat = c.val.toBitVec.toNat := rfl
    rw [Bool.and_eq_false_iff]
    by_cases h65 : 65 ≤ c.val.toNat
    · right
      simp [UInt32.le_def, BitVec.le_def]
      omega
    · left
      simp [UInt32.le_def, BitVec.le_def]
      omega

/-- Every character of a lower-cased string is non-upper-case. -/
theorem pyLower_chars_not_upper (s : String) (c : Char)
    (hc : c ∈ (pyLower s).data) : c.isUpper = false := by
  have hd : (pyLower s).data = s.data.map Char.toLower := rfl
  rw [hd] at hc
  obtain ⟨c0, _, hce⟩ := List.mem_map.mp hc
  rw [← hce]
  exact toLower_isUpper_false c0

/-- Whitespace skipping only discards characters. -/
theorem skipWs_subset (cs : List Char) : skipWs cs ⊆ cs := by
  induction cs with
  | nil => simp [skipWs]
  | cons c rest ih =>
    rw [skipWs]
    split
    · exact List.Subset.trans ih (List.subset_cons_self c rest)
    · exact List.Subset.refl _

/-- Characters of an escape-free parsed string body, and of the remaining
input, all come from the input. -/
theorem parseStrBody_chars :
    ∀ cs : List Char, '\\' ∉ cs → ∀ s r, parseStrBody cs = some (s, r) →
      s ⊆ cs ∧ r ⊆ cs := by
  intro cs
  induction cs with
  | nil => intro _ s r h; cases h
  | cons c rest ih =>
    intro hnb s r hp
    have hc : c ≠ '\\' := by
      intro he
      exact hnb (he ▸ List.mem_cons_self c rest)
    have hnbr : '\\' ∉ rest := fun hm => hnb (List.mem_cons_of_mem c hm)
    rw [parseStrBody.eq_def] at hp
    split at hp
    · cases hp
    · rename_i rest' heq
      cases heq
      cases hp
      exact ⟨by simp, List.subset_cons_self _ _⟩
    · rename_i h1 h2 h3 h4 rest' heq
      cases heq
      exact absurd rfl hc
    · rename_i e rest' heq
      cases heq
      exact absurd rfl hc
    · rename_i c' rest' hne1 hne2 hne3 heq
      cases heq
      cases hps : parseStrBody rest with
      | none => rw [hps] at hp; cases hp
      | some p =>
        rw [hps] at hp
        simp only [Option.map_some'] at hp
        cases hp
        obtain ⟨hs, hr⟩ := ih hnbr p.1 p.2 hps
        constructor
        · exact List.cons_subset.mpr ⟨List.mem_cons_self _ _,
            List.Subset.trans hs (List.subset_cons_self _ _)⟩
        · exact List.Subset.trans hr (List.subset_cons_self _ _)

/-- Digit scanning only discards characters from the rest. -/
theorem takeDigits_rest_subset (cs : List Char) : (takeDigits cs).2 ⊆ cs := by
  induction cs with
  | nil => simp [takeDigits]
  | cons c rest ih =>
    rw [takeDigits]
    split
    · simp only []
      exact List.Subset.trans ih (List.subset_cons_self c rest)
    · exact List.Subset.refl _

/-- Rest of a parsed unsigned number comes from the input. -/
theorem parseNumNat_rest_subset (cs : List Char) (n : Nat) (r : List Char)
    (h : parseNumNat cs = some (n, r)) : r ⊆ cs := by
  have hsub := takeDigits_rest_subset cs
  unfold parseNumNat at h
  split at h
  · cases h
  · rename_i d ds r0 heq
    split at h
    · cases h
    · split at h
      · cases h
      · cases h
      · cases h
      · cases h
        rw [heq] at hsub
        exact hsub

/-- Rest of a parsed number comes from the input. -/
theorem parseNum_rest_subset (cs : List Char) (n : Int) (r : List Char)
    (h : parseNum cs = some (n, r)) : r ⊆ cs := by
  unfold parseNum at h
  split at h
  · rename_i rest
    cases hpn : parseNumNat rest with
    | none => rw [hpn] at h; cases h
    | some p =>
      rw [hpn] at h
      simp only [Option.map_some'] at h
      cases h
      exact List.Subset.trans (parseNumNat_rest_subset rest p.1 p.2 hpn)
        (List.subset_cons_self _ _)
  · cases hpn : parseNumNat cs with
    | none => rw [hpn] at h; cases h
    | some p =>
      rw [hpn] at h
      simp only [Option.map_some'] at h
      cases h
      exact parseNumNat_rest_subset cs p.1 p.2 hpn


/-- Tail of a contained cons list is contained. -/
theorem cons_subset_tail {α : Type} {a : α} {l m : List α} (h : a :: l ⊆ m) : l ⊆ m :=
  (List.cons_subset.mp h).2

/-- Inversion: a string value of a string literal is that literal. -/
theorem hasStr_str_eq {s t : String} (h : HasStr (JValue.str s) t) : t = s := by
  cases h
  rfl

/-- Inversion: string values of an object come from its member values. -/
theorem hasStr_obj_inv {fs : List (String × JValue)} {t : String}
    (h : HasStr (JValue.obj fs) t) : ∃ k v, (k, v) ∈ fs ∧ HasStr v t := by
  cases h with
  | obj hm hv => exact ⟨_, _, hm, hv⟩

/-- Inversion: string values of an array come from its items. -/
theorem hasStr_arr_inv {xs : List JValue} {t : String}
    (h : HasStr (JValue.arr xs) t) : ∃ v, v ∈ xs ∧ HasStr v t := by
  cases h with
  | arr hm hv => exact ⟨_, hm, hv⟩

/-- Booleans contain no string values. -/
theorem hasStr_bool {b : Bool} {t : String} (h : HasStr (JValue.bool b) t) : False := by
  cases h

/-- Numbers contain no string values. -/
theorem hasStr_num {n : Int} {t : String} (h : HasStr (JValue.num n) t) : False := by
  cases h

/-- Null contains no string values. -/
theorem hasStr_null {t : String} (h : HasStr JValue.null t) : False := by
  cases h

set_option maxHeartbeats 4000000 in
/-- Containment of parsed strings: when the input contains no backslash, no
escape sequence is decoded, so every character of every string value of the
parsed result (and of the leftover input) is a character of the input. -/
theorem parse_subset_of_no_escape (fuel : Nat) :
    (∀ cs v r, '\\' ∉ cs → parseVal fuel cs = some (v, r) →
      (∀ s, HasStr v s → s.data ⊆ cs) ∧ r ⊆ cs) ∧
    (∀ cs ms r, '\\' ∉ cs → parseMembers fuel cs = some (ms, r) →
      (∀ k w, (k, w) ∈ ms → ∀ s, HasStr w s → s.data ⊆ cs) ∧ r ⊆ cs) ∧
    (∀ cs xs r, '\\' ∉ cs → parseItems fuel cs = some (xs, r) →
      (∀ w, w ∈ xs → ∀ s, HasStr w s → s.data ⊆ cs) ∧ r ⊆ cs) := by
  induction fuel with
  | zero =>
    refine ⟨?_, ?_, ?_⟩
    · intro cs v r _ h
      simp [parseVal] at h
    · intro cs ms r _ h
      simp [parseMembers] at h
    · intro cs xs r _ h
      simp [parseItems] at h
  | succ fuel ih =>
    obtain ⟨ihv, ihm, ihi⟩ := ih
    refine ⟨?_, ?_, ?_⟩
    · -- parseVal
      intro cs v r hnb hp
      rw [parseVal.eq_2] at hp
      split at hp
      · -- string
        rename_i rest heq
        have hrsub : rest ⊆ cs := cons_subset_tail (heq ▸ skipWs_subset cs)
        have hnbr : '\\' ∉ rest := fun hm => hnb (hrsub hm)
        cases hps : parseStrBody rest with
        | none => rw [hps] at hp; cases hp
        | some p =>
          rw [hps] at hp
          simp only [Option.map_some'] at hp
          cases hp
          obtain ⟨hs, hr⟩ := parseStrBody_chars rest hnbr p.1 p.2 hps
          constructor
          · intro s hstr
            rw [hasStr_str_eq hstr]
            exact fun c hc => hrsub (hs hc)
          · exact fun c hc => hrsub (hr hc)
      · -- object
        rename_i rest heq
        have hrsub : rest ⊆ cs := cons_subset_tail (heq ▸ skipWs_subset cs)
        split at hp
        · rename_i r2 heq2
          cases hp
          constructor
          · intro s hstr
            obtain ⟨k, w, hmem, _⟩ := hasStr_obj_inv hstr
            exact absurd hmem (List.not_mem_nil _)
          · exact fun c hc => hrsub (cons_subset_tail (heq2 ▸ skipWs_subset rest) hc)
        · rename_i cs2 hne
          have hcs2 : skipWs rest ⊆ cs := fun c hc => hrsub (skipWs_subset rest hc)
          have hnb2 : '\\' ∉ skipWs rest := fun hm => hnb (hcs2 hm)
          cases hpm : parseMembers fuel (skipWs rest) with
          | none => rw [hpm] at hp; cases hp
          | some q =>
            rw [hpm] at hp
            simp only [Option.map_some'] at hp
            cases hp
            obtain ⟨hstrs, hrest⟩ := ihm (skipWs rest) q.1 q.2 hnb2 hpm
            constructor
            · intro s hstr
              obtain ⟨k, w, hmem, hws⟩ := hasStr_obj_inv hstr
              exact fun c hc => hcs2 (hstrs k w hmem s hws hc)
            · exact fun c hc => hcs2 (hrest hc)
      · -- array
        rename_i rest heq
        have hrsub : rest ⊆ cs := cons_subset_tail (heq ▸ skipWs_subset cs)
        split at hp
        · rename_i r2 heq2
          cases hp
          constructor
          · intro s hstr
            obtain ⟨w, hmem, _⟩ := hasStr_arr_inv hstr
            exact absurd hmem (List.not_mem_nil _)
          · exact fun c hc => hrsub (cons_subset_tail (heq2 ▸ skipWs_subset rest) hc)
        · rename_i cs2 hne
          have hcs2 : skipWs rest ⊆ cs := fun c hc => hrsub (skipWs_subset rest hc)
          have hnb2 : '\\' ∉ skipWs rest := fun hm => hnb (hcs2 hm)
          cases hpi : parseItems fuel (skipWs rest) with
          | none => rw [hpi] at hp; cases hp
          | some q =>
            rw [hpi] at hp
            simp only [Option.map_some'] at hp
            cases hp
            obtain ⟨hstrs, hrest⟩ := ihi (skipWs rest) q.1 q.2 hnb2 hpi
            constructor
            · intro s hstr
              obtain ⟨w, hmem, hws⟩ := hasStr_arr_inv hstr
              exact fun c hc => hcs2 (hstrs w hmem s hws hc)
            · exact fun c hc => hcs2 (hrest hc)
      · -- true
        rename_i rest heq
        cases hp
        refine ⟨fun s hstr => (hasStr_bool hstr).elim, ?_⟩
        have h0 := heq ▸ skipWs_subset cs
        exact cons_subset_tail (cons_subset_tail (cons_subset_tail (cons_subset_tail h0)))
      · -- false
        rename_i rest heq
        cases hp
        refine ⟨fun s hstr => (hasStr_bool hstr).elim, ?_⟩
        have h0 := heq ▸ skipWs_subset cs
        exact cons_subset_tail (cons_subset_tail (cons_subset_tail (cons_subset_tail
          (cons_subset_tail h0))))
      · -- null
        rename_i rest heq
        cases hp
        refine ⟨fun s hstr => (hasStr_null hstr).elim, ?_⟩
        have h0 := heq ▸ skipWs_subset cs
        exact cons_subset_tail (cons_subset_tail (cons_subset_tail (cons_subset_tail h0)))
      · -- number
        cases hpn : parseNum (skipWs cs) with
        | none => rw [hpn] at hp; cases hp
        | some p =>
          rw [hpn] at hp
          simp only [Option.map_some'] at hp
          cases hp
          refine ⟨fun s hstr => (hasStr_num hstr).elim, ?_⟩
          exact fun c hc => skipWs_subset cs (parseNum_rest_subset _ p.1 p.2 hpn hc)
    · -- parseMembers
      intro cs ms r hnb hp
      rw [parseMembers.eq_2] at hp
      split at hp
      · rename_i rest heq
        have hrsub : rest ⊆ cs := cons_subset_tail (heq ▸ skipWs_subset cs)
        have hnbr : '\\' ∉ rest := fun hm => hnb (hrsub hm)
        cases hps : parseStrBody rest with
        | none => rw [hps] at hp; cases hp
        | some kp =>
          obtain ⟨key, r1⟩ := kp
          simp only [hps] at hp
          obtain ⟨hkeys, hr1⟩ := parseStrBody_chars rest hnbr key r1 hps
          have hr1cs : r1 ⊆ cs := fun c hc => hrsub (hr1 hc)
          split at hp
          · rename_i r2 heq2
            have hr2cs : r2 ⊆ cs := fun c hc =>
              hr1cs (cons_subset_tail (heq2 ▸ skipWs_subset r1) hc)
            have hnb2 : '\\' ∉ r2 := fun hm => hnb (hr2cs hm)
            cases hpv : parseVal fuel r2 with
            | none => simp only [hpv] at hp; cases hp
            | some vp =>
              obtain ⟨w, r3⟩ := vp
              simp only [hpv] at hp
              obtain ⟨hvstr, hr3⟩ := ihv r2 w r3 hnb2 hpv
              have hr3cs : r3 ⊆ cs := fun c hc => hr2cs (hr3 hc)
              split at hp
              · rename_i r4 heq4
                have hr4 : r4 ⊆ cs := fun c hc =>
                  hr3cs (cons_subset_tail (heq4 ▸ skipWs_subset r3) hc)
                have hnb4 : '\\' ∉ r4 := fun hm => hnb (hr4 hm)
                cases hpm : parseMembers fuel r4 with
                | none => rw [hpm] at hp; cases hp
                | some mp =>
                  rw [hpm] at hp
                  simp only [Option.map_some'] at hp
                  cases hp
                  obtain ⟨hms, hrr⟩ := ihm r4 mp.1 mp.2 hnb4 hpm
                  constructor
                  · intro k w' hmem s hstr
                    rcases List.mem_cons.mp hmem with hhd | htl
                    · cases hhd
                      exact fun c hc => hr2cs (hvstr s hstr hc)
                    · exact fun c hc => hr4 (hms k w' htl s hstr hc)
                  · exact fun c hc => hr4 (hrr hc)
              · rename_i r4 heq4
                cases hp
                constructor
                · intro k w' hmem s hstr
                  rcases List.mem_cons.mp hmem with hhd | htl
                  · cases hhd
                    exact fun c hc => hr2cs (hvstr s hstr hc)
                  · exact absurd htl (List.not_mem_nil _)
                · exact fun c hc => hr3cs (cons_subset_tail (heq4 ▸ skipWs_subset r3) hc)
              · cases hp
          · cases hp
      · cases hp
    · -- parseItems
      intro cs xs r hnb hp
      rw [parseItems.eq_2] at hp
      cases hpv : parseVal fuel cs with
      | none => simp only [hpv] at hp; cases hp
      | some vp =>
        obtain ⟨w, r1⟩ := vp
        simp only [hpv] at hp
        obtain ⟨hvstr, hr1⟩ := ihv cs w r1 hnb hpv
        split at hp
        · rename_i r2 heq2
          have hr2 : r2 ⊆ cs := fun c hc =>
            hr1 (cons_subset_tail (heq2 ▸ skipWs_subset r1) hc)
          have hnb2 : '\\' ∉ r2 := fun hm => hnb (hr2 hm)
          cases hpi : parseItems fuel r2 with
          | none => rw [hpi] at hp; cases hp
          | some q =>
            rw [hpi] at hp
            simp only [Option.map_some'] at hp
            cases hp
            obtain ⟨his, hrr⟩ := ihi r2 q.1 q.2 hnb2 hpi
            constructor
            · intro w' hmem s hstr
              rcases List.mem_cons.mp hmem with hhd | htl
              · cases hhd
                exact fun c hc => hvstr s hstr hc
              · exact fun c hc => hr2 (his w' htl s hstr hc)
            · exact fun c hc => hr2 (hrr hc)
        · rename_i r2 heq2
          cases hp
          constructor
          · intro w' hmem s hstr
            rcases List.mem_cons.mp hmem with hhd | htl
            · cases hhd
              exact fun c hc => hvstr s hstr hc
            · exact absurd htl (List.not_mem_nil _)
          · exact fun c hc => hr1 (cons_subset_tail (heq2 ▸ skipWs_subset r1) hc)
        · cases hp

/-- Membership of a successful dict lookup. -/
theorem jlookup_mem (fields : List (String × JValue)) (k : String) (v : JValue)
    (h : jlookup fields k = some v) : (k, v) ∈ fields := by
  unfold jlookup at h
  cases hf : fields.reverse.find? (fun p => p.1 = k) with
  | none => rw [hf] at h; cases h
  | some p =>
    rw [hf] at h
    simp only [Option.map_some'] at h
    cases h
    have hmem : p ∈ fields.reverse := List.mem_of_find?_eq_some hf
    have hk : p.1 = k := by simpa using List.find?_some hf
    rw [List.mem_reverse] at hmem
    have hpe : p = (k, p.2) := by
      rw [← hk]
    exact hpe ▸ hmem

/-- A string found by subscripting is a string value of the subscripted
object. -/
theorem subscript_hasStr (v : JValue) (k : String) (s : String)
    (h : subscript v k = some (JValue.str s)) : HasStr v s := by
  cases v with
  | obj fields => exact HasStr.obj (jlookup_mem fields k _ h) (HasStr.str s)
  | null => cases h
  | bool b => cases h
  | num n => cases h
  | str t => cases h
  | arr xs => cases h

/-- Containment of string values of a fully parsed document without
backslashes. -/
theorem json_loads_chars (s : String) (v : JValue) (hnb : '\\' ∉ s.data)
    (h : json_loads s = some v) : ∀ t, HasStr v t → t.data ⊆ s.data := by
  unfold json_loads at h
  cases hpv : parseVal (s.data.length + 2) s.data with
  | none => rw [hpv] at h; cases h
  | some p =>
    obtain ⟨v0, rest⟩ := p
    simp only [hpv] at h
    split at h
    · cases h
      exact ((parse_subset_of_no_escape (s.data.length + 2)).1 s.data v rest hnb hpv).1
    · cases h

/-! ## Claim theorems -/

/-- Claim C1, counterexample: the admin id 1 is in the whitelist, yet the
private/test flow still performs a classifier invocation (one backend
attempt) for a message it sent — the whitelist check there only replies with
a notice (`echoed true`) and classification proceeds (bot.py lines
261-264). -/
theorem whitelisted_private_still_classified :
    (1 : Int) ∈ WHITELIST_IDS env0 ∧
    (handle_private_message env0 1 mWhitelisted gen_not_spam stack0).1 ≠ 0 := by
  exact ⟨by decide, by decide⟩

/-- Claim C1, amended: in the group flow a whitelisted sender causes zero
classifier invocations; the private/test flow classifies regardless of
whitelist membership (its invocation count is that of a full
`check_spam` call). -/
theorem whitelist_bypass_flows (env : Env) (chatId : Int) (m : Message)
    (gen : String → Except PyErr String) (stack : List String)
    (u : UserD) (r : CommentRecord)
    (hwl : u.id ∈ WHITELIST_IDS env) :
    (get_comment_info false m = Except.ok (u, r) →
      (handle_comment env chatId m gen stack).1 = 0) ∧
    (chatId = env.ADMIN_ID → get_comment_info true m = Except.ok (u, r) →
      (handle_private_message env chatId m gen stack).1 = (check_spam gen stack).1) := by
  constructor
  · intro h
    unfold handle_comment
    split
    · rfl
    · simp only [h]
      rw [if_pos hwl]
  · intro hc h
    unfold handle_private_message
    rw [if_neg (by simp [hc])]
    simp only [h]
    rcases hcs : check_spam gen stack with ⟨n, res⟩
    simp only [hcs]
    cases res <;> rfl

/-- Claim C1, witness for the amended statement at a concrete input. -/
theorem whitelist_bypass_flows_witness :
    (handle_private_message env0 1 mWhitelisted gen_not_spam stack0).1 =
      (check_spam gen_not_spam stack0).1 :=
  (whitelist_bypass_flows env0 1 mWhitelisted gen_not_spam stack0 { id := 1 } {}
    (by decide)).2 rfl rfl

/-- Claim C2: with every backend of the stack always failing, the awaited
`check_spam` makes exactly one attempt per backend — `stack.length`, not
3 × `stack.length` — and re-raises the final backend's exception.  The
`@retry` decorator wraps an `async def`: its `try` block only constructs the
coroutine, which cannot raise, so the wrapper returns on its first loop
iteration and its retry logic is dead (bot.py lines 66-76, 99). -/
theorem check_spam_all_fail_attempts (gen : String → Except PyErr String)
    (stack : List String) (e : PyErr)
    (hfail : ∀ b ∈ stack, gen b = Except.error e) (hne : stack ≠ []) :
    check_spam gen stack = (stack.length, Except.error e) := by
  have hw := call_model_stack_all_fail gen e stack hfail hne
  unfold check_spam retry_async check_spam_body
  rw [hw]

/-- Claim C2, witness: the default two-backend stack with both backends
always raising makes exactly 2 attempts (one walk), and the exception
surfaces at the first `await`. -/
theorem check_spam_all_fail_attempts_witness :
    check_spam gen_fail stack0 = (2, Except.error PyErr.genFailure) :=
  check_spam_all_fail_attempts gen_fail stack0 PyErr.genFailure
    (fun _ _ => rfl) (by decide)

/-- Claim C3: a reply-context arriving with `text` (and `date`) leaves
redaction with its `text` dropped — the drop loop at bot.py lines 172-178
keeps only `caption` and `date`, deleting the text that line 168 just
truncated — so the redacted reply retains only the timestamp, contradicting
the specified behaviour of keeping the truncated text. -/
theorem reply_text_dropped_concrete :
    mReplyText.reply_to_message.bind ReplyMsg.text = some "hello post body" ∧
    (recordOf (get_comment_info false mReplyText)).bind CommentRecord.reply_to_message =
      some { caption := none, text := none, date := some 100, otherKeys := [] } := by
  exact ⟨rfl, rfl⟩

/-- Claim C6, counterexample: a premium sender (flag `is_premium = true`)
message in the private/test flow is still classified — that flow has no
premium check at all (bot.py lines 252-264). -/
theorem premium_private_still_classified :
    mPremium.from_user = some { id := 42, is_premium := some true } ∧
    (handle_private_message env0 1 mPremium gen_not_spam stack0).1 ≠ 0 := by
  exact ⟨rfl, by decide⟩

/-- Claim C6, amended: in the group flow a premium sender causes zero
classifier invocations whatever their whitelist status; the private/test
flow classifies regardless of the premium flag. -/
theorem premium_bypass_flows (env : Env) (chatId : Int) (m : Message)
    (gen : String → Except PyErr String) (stack : List String)
    (u : UserD) (r : CommentRecord)
    (hprem : u.is_premium = some true) :
    (get_comment_info false m = Except.ok (u, r) →
      (handle_comment env chatId m gen stack).1 = 0) ∧
    (chatId = env.ADMIN_ID → get_comment_info true m = Except.ok (u, r) →
      (handle_private_message env chatId m gen stack).1 = (check_spam gen stack).1) := by
  constructor
  · intro h
    unfold handle_comment
    split
    · rfl
    · simp only [h]
      by_cases hwl : u.id ∈ WHITELIST_IDS env
      · rw [if_pos hwl]
      · rw [if_neg hwl, if_pos hprem]
  · intro hc h
    unfold handle_private_message
    rw [if_neg (by simp [hc])]
    simp only [h]
    rcases hcs : check_spam gen stack with ⟨n, res⟩
    simp only [hcs]
    cases res <;> rfl

/-- Claim C6, witness for the amended statement: the premium sender is
skipped in the group flow with zero backend attempts. -/
theorem premium_bypass_flows_witness :
    (handle_comment env0 2 mPremium gen_not_spam stack0).1 = 0 :=
  (premium_bypass_flows env0 2 mPremium gen_not_spam stack0
    { id := 42, is_premium := some true }
    { from_user := { is_premium := some true } } rfl).1 rfl

set_option maxRecDepth 10000 in
/-- Claim C4, counterexample: a 1001-character comment text leaves redaction
as a 1003-character field — `truncate` keeps 1000 characters and appends the
3-character marker `"..."` — exceeding the claimed 1000-character cap. -/
theorem main_text_exceeds_cap :
    ((recordOf (get_comment_info false mLongText)).bind CommentRecord.text).map
      String.length = some 1003 ∧ 1000 < 1003 := by
  exact ⟨rfl, by decide⟩

/-- Claim C4, amended: the tracked text fields never exceed their caps plus
the 3-character truncation marker — the main text is at most 1003 characters
and the reply-context caption/text at most 503. -/
theorem redacted_text_bounds (tf : Bool) (m : Message) (u : UserD) (r : CommentRecord)
    (h : get_comment_info tf m = Except.ok (u, r)) :
    (∀ t, r.text = some t → t.length ≤ 1003) ∧
    (∀ rp, r.reply_to_message = some rp →
      (∀ c, rp.caption = some c → c.length ≤ 503) ∧
      (∀ t, rp.text = some t → t.length ≤ 503)) := by
  obtain ⟨-, htext, -, hreply, -, -, -, -⟩ := get_comment_info_ok tf m u r h
  constructor
  · intro t ht
    rw [htext] at ht
    cases hm : m.text with
    | none => rw [hm] at ht; cases ht
    | some t0 =>
      rw [hm] at ht
      simp only [Option.map_some'] at ht
      cases ht
      have := truncate_length_le t0 1000
      omega
  · intro rp hrp
    rw [hreply] at hrp
    exact trimmed_reply_bounds m rp hrp

/-- Claim C4, witness for the amended statement: the truncated long text in
the record produced from `mLongText` obeys the 1003 bound. -/
theorem redacted_text_bounds_witness :
    (truncate longText 1000).length ≤ 1003 :=
  (redacted_text_bounds false mLongText uLong rLong rfl).1 (truncate longText 1000) rfl

/-- Claim C5, counterexample: with a comment timestamp of 0 — present, but
falsy for Python truthiness — and a reply timestamp of 5, redaction
succeeds with both timestamps present in the record and
`comment_delay_seconds` absent, contradicting the claimed presence
if-and-only-if both timestamps are present. -/
theorem delay_absent_with_zero_date :
    (recordOf (get_comment_info false mZeroDate)).map
      (fun r => (r.date, r.reply_to_message.bind ReplyMsg.date, r.comment_delay_seconds)) =
      some (some 0, some 5, none) := rfl

/-- Claim C5, amended: on records that redaction produces,
`comment_delay_seconds` is present iff the trimmed reply dict is truthy
(non-empty) and the comment timestamp is present and non-zero, and then it
equals the exact signed difference of the two timestamps; and when the
trimmed reply is truthy without a timestamp while the comment timestamp is
truthy, redaction raises a `KeyError` instead of succeeding. -/
theorem comment_delay_characterization (tf : Bool) (m : Message) :
    (∀ u r, get_comment_info tf m = Except.ok (u, r) →
      r.comment_delay_seconds.isSome =
        (replyTruthyOpt r.reply_to_message && int_truthy r.date) ∧
      (∀ dly, r.comment_delay_seconds = some dly →
        ∃ d rd, r.date = some d ∧ r.reply_to_message.bind ReplyMsg.date = some rd ∧
          dly = d - rd)) ∧
    (∀ u, resolve_user tf m = Except.ok u →
      ∀ rp, trimmed_reply m = some rp → rp.truthy = true → rp.date = none →
        int_truthy m.date = true →
        get_comment_info tf m = Except.error RedactErr.keyError) := by
  constructor
  · intro u r h
    obtain ⟨-, -, hdate, hreply, -, -, hsome, hval⟩ := get_comment_info_ok tf m u r h
    constructor
    · rw [hsome, hreply, hdate]
    · intro dly hdly
      obtain ⟨d, rd, hd, hrd, he⟩ := hval dly hdly
      exact ⟨d, rd, by rw [hdate]; exact hd, by rw [hreply]; exact hrd, he⟩
  · intro u hres rp htr htruthy hdate hit
    have hdc : delay_calc m = Except.error RedactErr.keyError := by
      unfold delay_calc
      simp only [htr]
      rw [if_pos (by simp [htruthy, hit])]
      cases hmd : m.date with
      | none => rw [hmd] at hit; simp [int_truthy] at hit
      | some d => rw [hdate]
    simp only [get_comment_info, hres, hdc]
    rfl

/-- Claim C5, witness for the amended statement: a reply dict holding only a
caption, together with a truthy comment timestamp, makes redaction fail
with the `KeyError` of the missing reply timestamp. -/
theorem comment_delay_characterization_witness :
    get_comment_info false mCaptionNoDate = Except.error RedactErr.keyError :=
  (comment_delay_characterization false mCaptionNoDate).2 { id := 9 } rfl
    { caption := some "cap" } rfl rfl rfl rfl

/-- Claim C7: sender resolution follows forward-origin (when enabled and
carrying a known user), then the channel identity (`sender_chat`), then the
direct sender (`from_user`); when none of the three resolves,
`get_comment_info` fails with the sender-resolution error. -/
theorem sender_resolution_order (tf : Bool) (m : Message) :
    (∀ u, forward_sender tf m = some u →
      ∀ p, get_comment_info tf m = Except.ok p → p.1 = u) ∧
    (forward_sender tf m = none → ∀ c, m.sender_chat = some c →
      ∀ p, get_comment_info tf m = Except.ok p → p.1 = c) ∧
    (forward_sender tf m = none → m.sender_chat = none →
      ∀ u, m.from_user = some u →
        ∀ p, get_comment_info tf m = Except.ok p → p.1 = u) ∧
    (forward_sender tf m = none → m.sender_chat = none → m.from_user = none →
      get_comment_info tf m = Except.error RedactErr.missingSender) := by
  have hkey : ∀ u r, get_comment_info tf m = Except.ok (u, r) →
      resolve_user tf m = Except.ok u :=
    fun u r h => (get_comment_info_ok tf m u r h).1
  refine ⟨?_, ?_, ?_, ?_⟩
  · intro u hf p h
    obtain ⟨u0, r0⟩ := p
    have hres := hkey u0 r0 h
    unfold resolve_user at hres
    simp only [hf] at hres
    exact (Except.ok.inj hres).symm
  · intro hf c hsc p h
    obtain ⟨u0, r0⟩ := p
    have hres := hkey u0 r0 h
    unfold resolve_user at hres
    simp only [hf, hsc] at hres
    exact (Except.ok.inj hres).symm
  · intro hf hsc u hfu p h
    obtain ⟨u0, r0⟩ := p
    have hres := hkey u0 r0 h
    unfold resolve_user at hres
    simp only [hf, hsc, hfu] at hres
    exact (Except.ok.inj hres).symm
  · intro hf hsc hfu
    apply get_comment_info_resolve_error
    unfold resolve_user
    simp only [hf, hsc, hfu]

/-- Claim C7, witness: with no forward origin, no sender chat and no direct
sender, redaction fails with the sender-resolution error. -/
theorem sender_resolution_order_witness :
    get_comment_info true mNoSender = Except.error RedactErr.missingSender :=
  (sender_resolution_order true mNoSender).2.2.2 rfl rfl rfl

/-- Claim C8, counterexample: the response `{"spam": 0}` is valid JSON whose
`spam` field is not a boolean; it is not rejected — the handler interprets
`0` by Python truthiness and completes as not-spam without any exception,
contradicting the claim that a response not deserializing to the
required-boolean form propagates as an exception. -/
theorem nonbool_spam_no_error :
    handle_comment env0 2 mPlain gen_num_spam stack0 = (1, GroupOutcome.notSpam) := rfl

/-- Claim C8, amended: the classifier parses the trimmed, lower-cased
response as JSON — unparseable responses raise the decode error, a parsed
value without a `spam` key raises when the router subscripts it — but the
type of `spam` is never validated: any JSON value there is interpreted by
Python truthiness. -/
theorem verdict_parse_characterization (env : Env) (chatId : Int) (m : Message)
    (gen : String → Except PyErr String) (stack : List String) (n : Nat) (raw : String)
    (u : UserD) (r : CommentRecord)
    (hchat : chatId = env.TARGET_GROUP_ID)
    (hred : get_comment_info false m = Except.ok (u, r))
    (hwl : u.id ∉ WHITELIST_IDS env)
    (hprem : ¬u.is_premium = some true)
    (hwalk : call_model_stack gen stack = (n, Except.ok (some raw))) :
    (json_loads (pyLower (pyStrip raw)) = none →
      handle_comment env chatId m gen stack =
        (n, GroupOutcome.raised PyErr.jsonDecodeError)) ∧
    (∀ v, json_loads (pyLower (pyStrip raw)) = some v → subscript v "spam" = none →
      handle_comment env chatId m gen stack =
        (n, GroupOutcome.raised PyErr.keyErrorSpam)) ∧
    (∀ v sv, json_loads (pyLower (pyStrip raw)) = some v → subscript v "spam" = some sv →
      handle_comment env chatId m gen stack =
        (n, if pyTruthy sv then GroupOutcome.spamNotified else GroupOutcome.notSpam)) := by
  have hscope : ¬chatId ≠ env.TARGET_GROUP_ID := by simp [hchat]
  refine ⟨?_, ?_, ?_⟩
  · intro hj
    unfold handle_comment
    rw [if_neg hscope]
    simp only [hred]
    rw [if_neg hwl, if_neg hprem]
    unfold check_spam retry_async check_spam_body
    simp only [hwalk, hj]
  · intro v hj hs
    unfold handle_comment
    rw [if_neg hscope]
    simp only [hred]
    rw [if_neg hwl, if_neg hprem]
    unfold check_spam retry_async check_spam_body
    simp only [hwalk, hj, hs]
  · intro v sv hj hs
    unfold handle_comment
    rw [if_neg hscope]
    simp only [hred]
    rw [if_neg hwl, if_neg hprem]
    unfold check_spam retry_async check_spam_body
    simp only [hwalk, hj, hs]
    split <;> rfl

/-- Claim C8, witness for the amended statement: a non-JSON response makes
the pipeline raise the decode error after the single stack walk. -/
theorem verdict_parse_characterization_witness :
    handle_comment env0 2 mPlain gen_bad_json stack0 =
      (1, GroupOutcome.raised PyErr.jsonDecodeError) :=
  (verdict_parse_characterization env0 2 mPlain gen_bad_json stack0 1 "here you go: spam"
    uPlain rPlain rfl rfl (by decide) (by decide) rfl).1 rfl

/-- Claim C9, counterexample: with a transport error as the failure, a
failing escalation send makes the handler re-raise instead of terminating —
the unguarded `await send_to(...)` sits before `exit(1)` (bot.py lines
302-316), so the claimed "terminates exactly on transport errors" fails. -/
theorem transport_error_send_failure_no_exit :
    isTelegramError PyErr.telegramError = true ∧
    isExited (error_handler PyErr.telegramError (some "hi") "trace"
      (Except.error PyErr.telegramError)) = false := ⟨rfl, rfl⟩

/-- Claim C9, amended: the handler terminates the process exactly when the
failure is a transport error AND the escalation send itself succeeded; on a
successful send it delivers the truncated diagnostic (message text capped at
200 characters, last 300 characters of the trace) and continues for
non-transport failures; a failing send propagates the send's exception and
never terminates. -/
theorem error_handler_characterization (err : PyErr) (t : Option String) (tb : String)
    (send : Except PyErr Unit) :
    (isExited (error_handler err t tb send) = (isTelegramError err && sendOk send)) ∧
    (isTelegramError err = true → send = Except.ok () →
      error_handler err t tb send = ErrorHandlerResult.exited (mkDiag t tb)) ∧
    (isTelegramError err = false → send = Except.ok () →
      error_handler err t tb send = ErrorHandlerResult.continued (mkDiag t tb)) ∧
    (∀ e, send = Except.error e →
      error_handler err t tb send = ErrorHandlerResult.raised e) := by
  cases send with
  | error e =>
    refine ⟨?_, ?_, ?_, ?_⟩
    · simp [error_handler, isExited, sendOk]
    · intro _ hs; cases hs
    · intro _ hs; cases hs
    · intro e' hs
      cases hs
      rfl
  | ok u =>
    cases u
    by_cases ht : isTelegramError err = true
    · refine ⟨?_, ?_, ?_, ?_⟩
      · simp [error_handler, isExited, sendOk, ht]
      · intro _ _
        simp [error_handler, ht]
      · intro hf _
        rw [ht] at hf
        cases hf
      · intro e' hs
        cases hs
    · refine ⟨?_, ?_, ?_, ?_⟩
      · simp [error_handler, isExited, sendOk, ht]
      · intro htr _
        exact absurd htr ht
      · intro _ _
        simp [error_handler, ht]
      · intro e' hs
        cases hs

/-- Claim C9, witness for the amended statement: a classification-layer
failure (malformed model output) is reported with the truncated diagnostic
and the process continues. -/
theorem error_handler_characterization_witness :
    error_handler PyErr.jsonDecodeError (some "hello") "trace" (Except.ok ()) =
      ErrorHandlerResult.continued (mkDiag (some "hello") "trace") :=
  (error_handler_characterization PyErr.jsonDecodeError (some "hello") "trace"
    (Except.ok ())).2.2.1 rfl rfl

/-- Claim C10, counterexample: a response spelling its `why` with the JSON
escape `L` still yields the upper-case `why` value `"L"` in the parsed
verdict — lower-casing the raw text turns the escape into `L`, whose
hex value is unchanged — so the delivered justification can contain
upper-case characters. -/
theorem why_uppercase_via_escape :
    asStr ((okValue (check_spam gen_escape_why stack0).2).bind
      (fun v => subscript v "why")) = some "L" ∧
    "L".data.any Char.isUpper = true := ⟨rfl, rfl⟩

/-- Claim C10, amended: the classifier lower-cases the entire trimmed
response before JSON parsing, so whenever the lower-cased text contains no
backslash (no escape sequences), the `why` string of the parsed verdict
contains no upper-case characters; escapes are the only way upper case can
reappear. -/
theorem why_lowercase_no_escape (gen : String → Except PyErr String) (stack : List String)
    (n : Nat) (raw : String) (v : JValue) (s : String)
    (hwalk : call_model_stack gen stack = (n, Except.ok (some raw)))
    (hnb : '\\' ∉ (pyLower (pyStrip raw)).data)
    (hrun : check_spam gen stack = (n, Except.ok v))
    (hwhy : subscript v "why" = some (JValue.str s)) :
    s.data.all (fun c => !c.isUpper) = true := by
  have hj : json_loads (pyLower (pyStrip raw)) = some v := by
    unfold check_spam retry_async check_spam_body at hrun
    simp only [hwalk] at hrun
    cases hjl : json_loads (pyLower (pyStrip raw)) with
    | none =>
      simp only [hjl, Prod.mk.injEq] at hrun
      exact absurd hrun.2 (by simp)
    | some v0 =>
      simp only [hjl, Prod.mk.injEq] at hrun
      rw [Except.ok.inj hrun.2]
  have hstr : HasStr v s := subscript_hasStr v "why" s hwhy
  have hsub := json_loads_chars (pyLower (pyStrip raw)) v hnb hj s hstr
  rw [List.all_eq_true]
  intro c hc
  have hcu : c.isUpper = false := pyLower_chars_not_upper (pyStrip raw) c (hsub hc)
  simp [hcu]

/-- Claim C10, witness for the amended statement: a literally upper-cased
`why` (`"Bait Link"`, no escapes) reaches the verdict fully lower-cased. -/
theorem why_lowercase_no_escape_witness :
    ("bait link" : String).data.all (fun c => !c.isUpper) = true :=
  why_lowercase_no_escape gen_upper_why stack0 1
    "\x7b\"spam\": true, \"why\": \"Bait Link\"\x7d"
    (JValue.obj [("spam", JValue.bool true), ("why", JValue.str "bait link")])
    "bait link" rfl (by decide) rfl rfl
